import Mathlib

/-!
# Verification of the pctrl device-cycling tool

Shallow embedding of `src/main.rs` and `src/fs_helpers.rs`.

Modelling conventions:
* `DeviceInfo` carries the fields of `pulsectl::controllers::types::DeviceInfo`
  that the program reads (`index`, `name`, `description`, `mute`, `volume`);
  the u32 `index` is a `Nat` (the `< 2^32` bound appears as a hypothesis where
  it matters), `volume` is kept opaque as a `Nat`.
* The two fixed state files `/tmp/pctrl-input` and `/tmp/pctrl-output` become
  the two string slots of `Store`; a file that was never written holds `""`
  (the code opens the file with `create(true)`, so a missing file reads as
  empty content).  I/O failures of the filesystem are outside the model.
* The `DeviceService` (pulse controller) is modelled by the device list it
  returns; `get_device_by_index` is lookup in that same snapshot and the
  side-effecting calls (`move_app_by_index`, `set_default_device`,
  `set_device_mute_by_index`, volume changes, the `error!` report and the
  status `print!`) are recorded as an ordered `Effect` trace.
* Rust `String::to_lowercase` is modelled per-character by `Char.toLower`
  (ASCII case mapping), which agrees with Rust on the ASCII range that the
  `"monitor"` test inspects.
* A Rust error return (`anyhow::Result` bubbling out of `main`) and a panic
  (the `expect` in `next_dev`, the `unwrap` in the status block) are both
  modelled as `none`: the process exits non-zero in either case.
-/

namespace Pctrl

/-- `matchesFront needle hay` : `needle` is an initial segment of `hay`. -/
def matchesFront : List Char → List Char → Bool
  | [], _ => true
  | _ :: _, [] => false
  | a :: as, b :: bs => a == b && matchesFront as bs

/-- `hasSub hay needle` : `needle` occurs as a contiguous substring of `hay`.
Embeds Rust `str::contains` for a plain string pattern. -/
def hasSub : List Char → List Char → Bool
  | [], needle => matchesFront needle []
  | c :: t, needle => matchesFront needle (c :: t) || hasSub t needle

/-- Rust `String::to_lowercase`, restricted to the per-character (ASCII) case
mapping, as a character list. -/
def lowerChars (s : String) : List Char := s.data.map Char.toLower

/-- The fields of `pulsectl`'s `DeviceInfo` that the program reads. -/
structure DeviceInfo where
  index : Nat
  name : Option String
  description : Option String
  mute : Bool
  volume : Nat
deriving DecidableEq

/-- `enum Direction { Forward, Backward }` from `main.rs`. -/
inductive Direction
  | Forward
  | Backward
deriving DecidableEq

/-- `enum InputOutput { Input, Output }` from `main.rs`. -/
inductive InputOutput
  | Input
  | Output
deriving DecidableEq

/-- `enum Action { Next, Prev, Mute, Inc, Dec }` from `main.rs`. -/
inductive Action
  | Next
  | Prev
  | Mute
  | Inc
  | Dec
deriving DecidableEq

/-- `enum Status { Muted, Volume, Name, Desc }` from `main.rs`. -/
inductive Status
  | Muted
  | Volume
  | Name
  | Desc
deriving DecidableEq

/-- `fn ignore_monitor_devs(d: &&DeviceInfo) -> bool` from `main.rs`:
`!d.name.clone().unwrap_or_default().to_lowercase().contains("monitor")`. -/
def ignore_monitor_devs (d : DeviceInfo) : Bool :=
  !(hasSub (lowerChars (d.name.getD "")) ("monitor".data))

/-- `iter.cycle().take(n)` for a list-backed iterator: the first `n` elements
of the infinite repetition of `l` (empty when `l` is empty, as Rust's
`cycle` of an empty iterator yields nothing). -/
def cycleTake (l : List α) (n : Nat) : List α :=
  ((List.replicate n l).flatten).take n

/-- The device-selection pipeline of `fn next_dev` (`main.rs` lines 137-155):

```
let iter = match direction { Forward => devices.iter(), Backward => devices.iter().rev() };
iter.cycle().take(devices.len()*2)
    .skip_while(|d| d.index != prev.index)
    .skip(1)
    .filter(ignore_monitor_devs)
    .next()
```

`none` corresponds to the `expect` panic. -/
def next_dev_select (devices : List DeviceInfo) (direction : Direction)
    (prev : DeviceInfo) : Option DeviceInfo :=
  let iter : List DeviceInfo :=
    match direction with
    | Direction.Forward => devices
    | Direction.Backward => devices.reverse
  (((((cycleTake iter (devices.length * 2)).dropWhile
      (fun d => d.index != prev.index)).drop 1).filter
      ignore_monitor_devs).head?)

/-- The accumulating fold step of decimal parsing: `acc * 10 + digit`. -/
def digitStep (a : Nat) (c : Char) : Nat := a * 10 + (c.toNat - 48)

/-- Drop the optional leading `'+'` accepted by Rust's unsigned parser. -/
def stripPlus (cs : List Char) : List Char :=
  if cs.head? = some '+' then cs.tail else cs

/-- Rust `str::parse::<u32>()` (`u32::from_str`) on the character list: an
optional leading `'+'`, then one or more ASCII digits, value below `2^32`;
anything else is `Err` (modelled as `none`).  A value of at least `2^32`
triggers Rust's overflow error; in `Nat` arithmetic the digit fold is exact,
and it overflows at some step iff the total value is at least `2^32`. -/
def parseU32Chars (cs : List Char) : Option Nat :=
  if stripPlus cs = [] then none
  else if (stripPlus cs).all Char.isDigit then
    if (stripPlus cs).foldl digitStep 0 < 4294967296 then
      some ((stripPlus cs).foldl digitStep 0)
    else none
  else none

/-- Rust `str::parse::<u32>()` on a string. -/
def parseU32 (s : String) : Option Nat := parseU32Chars s.data

/-- Big-endian decimal digits of `n`, with explicit fuel (the recursion is on
the fuel; any fuel above `n` gives the digits of `n`). -/
def natToDigitsAux : Nat → Nat → List Char → List Char
  | 0, _, acc => acc
  | fuel + 1, n, acc =>
    if n < 10 then Char.ofNat (48 + n % 10) :: acc
    else natToDigitsAux fuel (n / 10) (Char.ofNat (48 + n % 10) :: acc)

/-- Rust `u32::to_string()`: decimal rendering of `n`. -/
def natRepr (n : Nat) : String := String.mk (natToDigitsAux (n + 1) n [])

/-- The two fixed state files `/tmp/pctrl-input` and `/tmp/pctrl-output` from
`fs_helpers.rs`, by content; `""` is a never-written (or just-created) file. -/
structure Store where
  input : String
  output : String
deriving DecidableEq

/-- Content of the state file for a device class. -/
def getSlot (s : Store) : InputOutput → String
  | InputOutput.Input => s.input
  | InputOutput.Output => s.output

/-- `fn read_device_index` from `fs_helpers.rs`: open (creating if absent) the
class's state file, read the content, `content.parse::<u32>().ok()`. -/
def read_device_index (s : Store) (io_class : InputOutput) : Option Nat :=
  parseU32 (getSlot s io_class)

/-- `fn write_device_index` from `fs_helpers.rs`: truncate the class's state
file and write `index.to_string()`. -/
def write_device_index (s : Store) (io_class : InputOutput) (index : Nat) : Store :=
  match io_class with
  | InputOutput.Input => { s with input := natRepr index }
  | InputOutput.Output => { s with output := natRepr index }

/-- Observable side effects of one invocation, in order of occurrence. -/
inductive Effect
  | moveStream (appIndex : Nat) (devIndex : Nat)
  | setDefaultDevice (name : String)
  | writeIndex (io_class : InputOutput) (idx : Nat)
  | setMute (idx : Nat) (mute : Bool)
  | incVolume (idx : Nat)
  | decVolume (idx : Nat)
  | report (msg : String)
  | printMuted (b : Bool)
  | printVolume (v : Nat)
  | printName (s : String)
  | printDesc (s : String)
deriving DecidableEq

/-- `SetDefault::set_default` (`main.rs` lines 109-119): move every running
application (given by its index) to the device `index`. -/
def set_default (apps : List Nat) (index : Nat) : List Effect :=
  apps.map (fun a => Effect.moveStream a index)

/-- `fn next_dev` (`main.rs` lines 129-162): select the cycle target, move all
applications to it, set it as the server default (by name), and persist its
index.  `none` is the `expect` panic (process aborts, nothing is written). -/
def next_dev (devices : List DeviceInfo) (direction : Direction)
    (prev : DeviceInfo) (io_class : InputOutput) (apps : List Nat)
    (s : Store) : Option (Store × List Effect) :=
  match next_dev_select devices direction prev with
  | none => none
  | some nd =>
    some (write_device_index s io_class nd.index,
      set_default apps nd.index ++
        [Effect.setDefaultDevice (nd.name.getD ""),
         Effect.writeIndex io_class nd.index])

/-- `fn get_default_device` (`main.rs` lines 32-63).  Returns the resolved
"current" device, the store after the call, and the persistence effects.
`none` is the `anyhow!("No devices found")` error return. -/
def get_default_device (devices : List DeviceInfo) (io_class : InputOutput)
    (s : Store) : Option (DeviceInfo × Store × List Effect) :=
  match read_device_index s io_class with
  | some idx =>
    match devices.find? (fun d => d.index == idx) with
    | some device => some (device, s, [])
    | none =>
      match (devices.filter ignore_monitor_devs).head? with
      | some dev =>
        some (dev, write_device_index s io_class dev.index,
          [Effect.writeIndex io_class dev.index])
      | none => none
  | none =>
    match devices.head? with
    | some dev =>
      some (dev, write_device_index s io_class dev.index,
        [Effect.writeIndex io_class dev.index])
    | none => none

/-- The single attribute printed by the `--status` block. -/
def statusEffect (st : Status) (d : DeviceInfo) : Effect :=
  match st with
  | Status.Muted => Effect.printMuted d.mute
  | Status.Volume => Effect.printVolume d.volume
  | Status.Name => Effect.printName (d.name.getD "")
  | Status.Desc => Effect.printDesc (d.description.getD "")

/-- The `if let Some(status)` tail of `main` (`main.rs` lines 212-221):
re-read the persisted index (`unwrap` panics when it is unset, modelled as
`none`), look the device up (`?` propagates the lookup failure, modelled as
`none`), print one attribute. -/
def status_block (devices : List DeviceInfo) (io_class : InputOutput)
    (s2 : Store) (eff : List Effect) (status : Option Status) :
    Option (Store × List Effect) :=
  match status with
  | none => some (s2, eff)
  | some st =>
    match read_device_index s2 io_class with
    | none => none
    | some idx =>
      match devices.find? (fun d => d.index == idx) with
      | none => none
      | some info => some (s2, eff ++ [statusEffect st info])

/-- The `match cli.action` dispatch of `main` (`main.rs` lines 193-210). -/
def dispatch_action (devices : List DeviceInfo) (io_class : InputOutput)
    (prev : DeviceInfo) (apps : List Nat) (s1 : Store) :
    Option Action → Option (Store × List Effect)
  | some Action.Next => next_dev devices Direction.Forward prev io_class apps s1
  | some Action.Prev => next_dev devices Direction.Backward prev io_class apps s1
  | some Action.Mute => some (s1, [Effect.setMute prev.index (!prev.mute)])
  | some Action.Inc => some (s1, [Effect.incVolume prev.index])
  | some Action.Dec => some (s1, [Effect.decVolume prev.index])
  | none => some (s1, [])

/-- The tail of `main` after the current device is resolved: action dispatch
(`main.rs` lines 193-210) and then the status block. -/
def action_tail (devices : List DeviceInfo) (io_class : InputOutput)
    (prev : DeviceInfo) (apps : List Nat) (s1 : Store) (eff1 : List Effect)
    (action : Option Action) (status : Option Status) :
    Option (Store × List Effect) :=
  match dispatch_action devices io_class prev apps s1 action with
  | none => none
  | some (s2, eff2) => status_block devices io_class s2 (eff1 ++ eff2) status

/-- `fn main` (`main.rs` lines 164-224) after the controller is created, for
one device class: the empty-catalog early return (exit 0 after the
`error!("No devices found")` report), current-device resolution, action
dispatch, status block.  `some` is exit status 0; `none` is a non-zero exit
(error return or panic). -/
def main_model (devices : List DeviceInfo) (io_class : InputOutput) (s : Store)
    (action : Option Action) (status : Option Status) (apps : List Nat) :
    Option (Store × List Effect) :=
  if devices.isEmpty then some (s, [Effect.report "No devices found"])
  else
    match get_default_device devices io_class s with
    | none => none
    | some (prev, s1, eff1) =>
      action_tail devices io_class prev apps s1 eff1 action status

/-- The persisted index is present but no longer resolves to a device of the
live catalog. -/
def staleB (s : Store) (io_class : InputOutput) (devices : List DeviceInfo) : Bool :=
  match read_device_index s io_class with
  | some idx => (devices.find? (fun d => d.index == idx)).isNone
  | none => false

/-- `k` consecutive invocations of the cycling step, each feeding the selected
target of the previous one back in as `prev` (the persisted index written by
one run is the current device of the next, against the same catalog). -/
def stepN (l : List DeviceInfo) (dir : Direction) : Nat → DeviceInfo → Option DeviceInfo
  | 0, d => some d
  | k + 1, d => (next_dev_select l dir d).bind (stepN l dir k)

/-! ## Decimal round-trip: `write_device_index` then `read_device_index` -/

/-- The character `48 + d` produced for a digit `d` is an ASCII digit and its
code point is exactly `48 + d`. -/
theorem digitChar_spec (d : Nat) (hd : d < 10) :
    (Char.ofNat (48 + d)).isDigit = true ∧ (Char.ofNat (48 + d)).toNat = 48 + d := by
  interval_cases d <;> exact ⟨by decide, by decide⟩

/-- The digit accumulator only prepends: the accumulator comes out unchanged
behind the digits of `n`. -/
theorem natToDigitsAux_acc :
    ∀ fuel n acc, natToDigitsAux fuel n acc = natToDigitsAux fuel n [] ++ acc := by
  intro fuel
  induction fuel with
  | zero => intro n acc; simp [natToDigitsAux]
  | succ f ih =>
    intro n acc
    by_cases h : n < 10
    · simp [natToDigitsAux, h]
    · simp only [natToDigitsAux, if_neg h]
      rw [ih (n / 10) (Char.ofNat (48 + n % 10) :: acc),
        ih (n / 10) (Char.ofNat (48 + n % 10) :: [])]
      simp

/-- With any fuel at all, the rendering of `n` is nonempty. -/
theorem natToDigitsAux_ne_nil (fuel n : Nat) (h : fuel ≠ 0) :
    natToDigitsAux fuel n [] ≠ [] := by
  cases fuel with
  | zero => exact absurd rfl h
  | succ f =>
    by_cases h10 : n < 10
    · simp [natToDigitsAux, h10]
    · simp only [natToDigitsAux, if_neg h10]
      rw [natToDigitsAux_acc]
      simp

/-- Every character of the rendering of `n` is an ASCII digit. -/
theorem natToDigitsAux_digits :
    ∀ fuel n, n < fuel → ∀ c ∈ natToDigitsAux fuel n [], c.isDigit = true := by
  intro fuel
  induction fuel with
  | zero => intro n hn; exact absurd hn (Nat.not_lt_zero n)
  | succ f ih =>
    intro n hn c hc
    by_cases h : n < 10
    · simp only [natToDigitsAux, if_pos h, List.mem_singleton] at hc
      rw [hc]
      exact (digitChar_spec (n % 10) (Nat.mod_lt n (by omega))).1
    · simp only [natToDigitsAux, if_neg h] at hc
      rw [natToDigitsAux_acc] at hc
      rcases List.mem_append.mp hc with h1 | h1
      · exact ih (n / 10) (by omega) c h1
      · rw [List.mem_singleton.mp h1]
        exact (digitChar_spec (n % 10) (Nat.mod_lt n (by omega))).1

/-- Folding `digitStep` over the rendering of `n` recovers `n` (with the fold
seed contributing at the corresponding power of ten). -/
theorem natToDigitsAux_foldl :
    ∀ fuel n a, n < fuel →
      List.foldl digitStep a (natToDigitsAux fuel n [])
        = a * 10 ^ (natToDigitsAux fuel n []).length + n := by
  intro fuel
  induction fuel with
  | zero => intro n a hn; exact absurd hn (Nat.not_lt_zero n)
  | succ f ih =>
    intro n a hn
    by_cases h : n < 10
    · simp only [natToDigitsAux, if_pos h, List.foldl_cons, List.foldl_nil,
        List.length_singleton, pow_one, digitStep]
      rw [(digitChar_spec (n % 10) (Nat.mod_lt n (by omega))).2]
      omega
    · simp only [natToDigitsAux, if_neg h]
      rw [natToDigitsAux_acc, List.foldl_append, List.length_append,
        ih (n / 10) a (by omega)]
      simp only [List.foldl_cons, List.foldl_nil, List.length_singleton, digitStep]
      rw [(digitChar_spec (n % 10) (Nat.mod_lt n (by omega))).2, pow_succ,
        ← mul_assoc]
      generalize a * (10 : Nat) ^ (natToDigitsAux f (n / 10) []).length = u
      omega

/-- Round-trip: parsing the decimal rendering of a value below `2^32`
recovers the value. -/
theorem parseU32_natRepr (n : Nat) (h : n < 4294967296) :
    parseU32 (natRepr n) = some n := by
  have hne := natToDigitsAux_ne_nil (n + 1) n (Nat.succ_ne_zero n)
  have hdig := natToDigitsAux_digits (n + 1) n (Nat.lt_succ_self n)
  have hval := natToDigitsAux_foldl (n + 1) n 0 (Nat.lt_succ_self n)
  obtain ⟨c, t, hct⟩ : ∃ c t, natToDigitsAux (n + 1) n [] = c :: t := by
    cases hl : natToDigitsAux (n + 1) n [] with
    | nil => exact absurd hl hne
    | cons c t => exact ⟨c, t, rfl⟩
  rw [hct] at hdig hval
  have hcd : c.isDigit = true := hdig c (List.mem_cons_self c t)
  have hplus : ¬ ((c :: t).head? = some '+') := by
    intro he
    have hc' : c = '+' := by simpa using he
    rw [hc'] at hcd
    exact absurd hcd (by decide)
  have hvn : List.foldl digitStep 0 (c :: t) = n := by simpa using hval
  show parseU32Chars (natToDigitsAux (n + 1) n []) = some n
  rw [hct]
  have hsp : stripPlus (c :: t) = c :: t := by
    unfold stripPlus
    rw [if_neg hplus]
  unfold parseU32Chars
  rw [hsp, if_neg (by simp : ¬(c :: t = [])),
    if_pos (List.all_eq_true.mpr (fun x hx => hdig x hx)), hvn, if_pos (by omega)]

/-- Reading back a just-written index for the same device class yields the
written index (u32 values only; the write stores its decimal rendering). -/
theorem read_after_write (s : Store) (io_class : InputOutput) (n : Nat)
    (h : n < 4294967296) :
    read_device_index (write_device_index s io_class n) io_class = some n := by
  cases io_class <;>
    simp [read_device_index, write_device_index, getSlot, parseU32_natRepr n h]

/-! ## Structure of the selection pipeline -/

/-- `cycle().take(2 * len)` of a list-backed iterator is the list doubled. -/
theorem cycleTake_double (l : List α) : cycleTake l (l.length * 2) = l ++ l := by
  cases l with
  | nil => simp [cycleTake]
  | cons a t =>
    have hk : (a :: t).length * 2 = t.length * 2 + 1 + 1 := by
      simp only [List.length_cons]; omega
    rw [cycleTake, hk, List.replicate_succ, List.replicate_succ,
      List.flatten_cons, List.flatten_cons, ← List.append_assoc]
    exact List.take_left' (by simp only [List.length_append, List.length_cons]; omega)

/-- `dropWhile` jumps a whole prefix on which the predicate holds. -/
theorem dropWhile_append_all {p : α → Bool} :
    ∀ (a b : List α), (∀ y ∈ a, p y = true) →
      (a ++ b).dropWhile p = b.dropWhile p := by
  intro a
  induction a with
  | nil => intro b _; rfl
  | cons x t ih =>
    intro b h
    rw [List.cons_append, List.dropWhile_cons_of_pos (h x (List.mem_cons_self x t))]
    exact ih b (fun y hy => h y (List.mem_cons_of_mem x hy))

/-- Elements of the doubled-and-truncated cycle all come from the list. -/
theorem mem_cycleTake {y : α} {l : List α} {n : Nat} (h : y ∈ cycleTake l n) :
    y ∈ l := by
  unfold cycleTake at h
  obtain ⟨c, hc, hyc⟩ := List.mem_flatten.mp (List.mem_of_mem_take h)
  rw [List.eq_of_mem_replicate hc] at hyc
  exact hyc

/-- A `head?` hit is a member. -/
theorem mem_of_head?_eq_some {l : List α} {d : α} (h : l.head? = some d) : d ∈ l := by
  cases l with
  | nil => exact absurd h (by simp)
  | cons a t =>
    obtain rfl : a = d := Option.some.inj h
    exact List.mem_cons_self a t

/-- The `next_dev` pipeline on a catalog split at the first index match:
the prefix is skipped, the matching element is skipped, and the rest of the
doubled list is filtered for eligibility. -/
theorem select_pipeline_decomp (l₁ l₂ : List DeviceInfo) (x prev : DeviceInfo)
    (hx : (x.index != prev.index) = false)
    (h₁ : ∀ y ∈ l₁, (y.index != prev.index) = true) :
    next_dev_select (l₁ ++ x :: l₂) Direction.Forward prev
      = ((l₂ ++ (l₁ ++ x :: l₂)).filter ignore_monitor_devs).head? := by
  show (((((cycleTake (l₁ ++ x :: l₂) ((l₁ ++ x :: l₂).length * 2)).dropWhile
      (fun d => d.index != prev.index)).drop 1).filter
      ignore_monitor_devs).head?)
      = ((l₂ ++ (l₁ ++ x :: l₂)).filter ignore_monitor_devs).head?
  rw [cycleTake_double]
  have hsplit : (l₁ ++ x :: l₂) ++ (l₁ ++ x :: l₂)
      = l₁ ++ (x :: (l₂ ++ (l₁ ++ x :: l₂))) := by
    simp
  rw [hsplit, dropWhile_append_all l₁ _ h₁,
    List.dropWhile_cons_of_neg (by rw [hx]; exact Bool.false_ne_true),
    List.drop_succ_cons, List.drop_zero]

/-- Walking backward is walking forward on the reversed catalog (the take
count `devices.len() * 2` is invariant under reversal). -/
theorem select_backward_eq (l : List DeviceInfo) (prev : DeviceInfo) :
    next_dev_select l Direction.Backward prev
      = next_dev_select l.reverse Direction.Forward prev := by
  unfold next_dev_select
  rw [List.length_reverse]

/-- Split a list at the first element satisfying a predicate. -/
theorem split_first {α : Type} (p : α → Bool) :
    ∀ l : List α, (∃ d ∈ l, p d = true) →
      ∃ l₁ x l₂, l = l₁ ++ x :: l₂ ∧ p x = true ∧ ∀ y ∈ l₁, p y = false := by
  intro l
  induction l with
  | nil => rintro ⟨d, hd, -⟩; exact absurd hd (List.not_mem_nil d)
  | cons a t ih =>
    rintro ⟨d, hd, hpd⟩
    by_cases hpa : p a = true
    · exact ⟨[], a, t, rfl, hpa, by simp⟩
    · have hdt : d ∈ t := by
        rcases List.mem_cons.mp hd with h | h
        · rw [← h] at hpa; exact absurd hpd hpa
        · exact h
      obtain ⟨l₁, x, l₂, heq, hpx, hall⟩ := ih ⟨d, hdt, hpd⟩
      refine ⟨a :: l₁, x, l₂, by rw [heq]; rfl, hpx, ?_⟩
      intro y hy
      rcases List.mem_cons.mp hy with h | h
      · rw [h]; revert hpa; cases p a <;> simp
      · exact hall y h

/-- Forward selection, computed: split the catalog at the first device whose
index matches `prev`, then the target is the head of the filtered remainder
followed by the filtered whole catalog. -/
theorem select_forward_spec (l : List DeviceInfo) (prev : DeviceInfo)
    (hmem : ∃ d ∈ l, d.index = prev.index) :
    ∃ l₁ x l₂, l = l₁ ++ x :: l₂ ∧ x.index = prev.index ∧
      (∀ y ∈ l₁, (y.index == prev.index) = false) ∧
      next_dev_select l Direction.Forward prev
        = ((l₂ ++ l).filter ignore_monitor_devs).head? := by
  obtain ⟨l₁, x, l₂, heq, hpx, hall⟩ :=
    split_first (fun d => d.index == prev.index) l
      (by obtain ⟨d, hd, he⟩ := hmem; exact ⟨d, hd, by simp [he]⟩)
  refine ⟨l₁, x, l₂, heq, by simpa using hpx, hall, ?_⟩
  rw [heq]
  exact select_pipeline_decomp l₁ l₂ x prev (by simp_all [bne])
    (fun y hy => by simp [bne, hall y hy])

/-- Whatever `next_dev` selects is a device of the catalog and is eligible
(its lowercased name does not contain `"monitor"`). -/
theorem select_mem {l : List DeviceInfo} {dir : Direction} {prev d : DeviceInfo}
    (h : next_dev_select l dir prev = some d) :
    d ∈ l ∧ ignore_monitor_devs d = true := by
  have main : ∀ (iter : List DeviceInfo) (n : Nat),
      ((((cycleTake iter n).dropWhile
        (fun dd => dd.index != prev.index)).drop 1).filter
        ignore_monitor_devs).head? = some d → d ∈ iter ∧ ignore_monitor_devs d = true := by
    intro iter n hh
    have h1 := List.mem_filter.mp (mem_of_head?_eq_some hh)
    refine ⟨?_, h1.2⟩
    exact mem_cycleTake ((List.dropWhile_sublist _).subset (List.mem_of_mem_drop h1.1))
  cases dir with
  | Forward => exact main l (l.length * 2) h
  | Backward =>
    have := main l.reverse (l.length * 2) h
    exact ⟨List.mem_reverse.mp this.1, this.2⟩

/-- Totality for forward walks: if some device of the catalog carries `prev`'s
index and some device is eligible, the pipeline finds a target. -/
theorem select_forward_isSome (l : List DeviceInfo) (prev : DeviceInfo)
    (hprev : ∃ d ∈ l, d.index = prev.index)
    (helig : ∃ d ∈ l, ignore_monitor_devs d = true) :
    (next_dev_select l Direction.Forward prev).isSome = true := by
  obtain ⟨l₁, x, l₂, heq, -, -, hsel⟩ := select_forward_spec l prev hprev
  rw [hsel, List.head?_isSome]
  intro hnil
  rw [List.filter_append] at hnil
  obtain ⟨e, he, hel⟩ := helig
  have hmem : e ∈ l.filter ignore_monitor_devs := List.mem_filter.mpr ⟨he, hel⟩
  rw [(List.append_eq_nil.mp hnil).2 ] at hmem
  exact absurd hmem (List.not_mem_nil e)

/-- Totality in both directions: `next_dev`'s terminal `expect` cannot fire
when `prev`'s index is live and an eligible device exists. -/
theorem select_isSome_of_elig (l : List DeviceInfo) (dir : Direction)
    (prev : DeviceInfo)
    (hprev : ∃ d ∈ l, d.index = prev.index)
    (helig : ∃ d ∈ l, ignore_monitor_devs d = true) :
    (next_dev_select l dir prev).isSome = true := by
  cases dir with
  | Forward => exact select_forward_isSome l prev hprev helig
  | Backward =>
    rw [select_backward_eq]
    refine select_forward_isSome l.reverse prev ?_ ?_
    · obtain ⟨d, hd, he⟩ := hprev; exact ⟨d, List.mem_reverse.mpr hd, he⟩
    · obtain ⟨d, hd, he⟩ := helig; exact ⟨d, List.mem_reverse.mpr hd, he⟩

/-- With no eligible device at all, the pipeline finds nothing (the `expect`
panics). -/
theorem select_none_of_no_elig (l : List DeviceInfo) (dir : Direction)
    (prev : DeviceInfo) (h : l.filter ignore_monitor_devs = []) :
    next_dev_select l dir prev = none := by
  cases hs : next_dev_select l dir prev with
  | none => rfl
  | some d =>
    obtain ⟨hdl, hde⟩ := select_mem hs
    have hmem : d ∈ l.filter ignore_monitor_devs := List.mem_filter.mpr ⟨hdl, hde⟩
    rw [h] at hmem
    exact absurd hmem (List.not_mem_nil d)

/-! ## The cycling step as a successor in the eligible subsequence -/

/-- Positional congruence for `List.get`. -/
theorem get_congr_idx (l : List α) (i j : Nat) (hi : i < l.length)
    (hj : j < l.length) (h : i = j) : l.get ⟨i, hi⟩ = l.get ⟨j, hj⟩ := by
  subst h
  rfl

/-- The element right after a prefix of known length. -/
theorem get_append_length :
    ∀ (a : List α) (x : α) (b : List α) (h : a.length < (a ++ x :: b).length),
      (a ++ x :: b).get ⟨a.length, h⟩ = x := by
  intro a
  induction a with
  | nil => intro x b h; rfl
  | cons c t ih =>
    intro x b h
    exact ih x b (by simp)

/-- `get` on a reversed list, with the mirrored position. -/
theorem get_reverse_eq (l : List α) (m : Nat) (hm : m < l.reverse.length)
    (hm2 : l.length - 1 - m < l.length) :
    l.reverse.get ⟨m, hm⟩ = l.get ⟨l.length - 1 - m, hm2⟩ := by
  simp only [List.get_eq_getElem]
  exact List.getElem_reverse hm

/-- In a catalog with pairwise distinct indices, a device is determined by
its index. -/
theorem eq_of_index_nodup {l : List DeviceInfo}
    (hnd : (l.map DeviceInfo.index).Nodup) {a b : DeviceInfo}
    (ha : a ∈ l) (hb : b ∈ l) (hib : a.index = b.index) : a = b :=
  List.inj_on_of_nodup_map hnd ha hb hib

/-- One forward cycling step from the `i`-th eligible device lands on the
`(i+1) mod N`-th eligible device: `next_dev`'s walk over the doubled full
catalog, restricted to eligible starting points, is the cyclic successor of
the eligible subsequence.  Requires pairwise distinct device indices (true of
any one server snapshot, where identity is by index). -/
theorem step_forward_get (l E : List DeviceInfo)
    (hE : E = l.filter ignore_monitor_devs)
    (hnd : (l.map DeviceInfo.index).Nodup)
    (i : Nat) (hi : i < E.length)
    (hsucc : (i + 1) % E.length < E.length) :
    next_dev_select l Direction.Forward (E.get ⟨i, hi⟩)
      = some (E.get ⟨(i + 1) % E.length, hsucc⟩) := by
  set x := E.get ⟨i, hi⟩ with hxdef
  have hxE : x ∈ E := by rw [hxdef]; exact List.get_mem E i hi
  have hxl : x ∈ l := by
    have h := hxE; rw [hE] at h; exact (List.mem_filter.mp h).1
  have hxe : ignore_monitor_devs x = true := by
    have h := hxE; rw [hE] at h; exact (List.mem_filter.mp h).2
  obtain ⟨l₁, x', l₂, heq, hx'i, hall, hsel⟩ :=
    select_forward_spec l x ⟨x, hxl, rfl⟩
  have hx'l : x' ∈ l := by
    rw [heq]; exact List.mem_append_right _ (List.mem_cons_self _ _)
  obtain rfl : x' = x := eq_of_index_nodup hnd hx'l hxl hx'i
  have hEeq : E = l₁.filter ignore_monitor_devs ++ x :: l₂.filter ignore_monitor_devs := by
    rw [hE, heq, List.filter_append, List.filter_cons_of_pos hxe]
  have hmapnd : (l₁.map DeviceInfo.index
      ++ x.index :: l₂.map DeviceInfo.index).Nodup := by
    have h0 := hnd
    rw [heq] at h0
    simpa using h0
  have hnotin : x.index ∉ l₁.map DeviceInfo.index
      ∧ x.index ∉ l₂.map DeviceInfo.index := by
    have h1 : (x.index :: (l₁.map DeviceInfo.index
        ++ l₂.map DeviceInfo.index)).Nodup := List.nodup_middle.mp hmapnd
    have h2 := (List.nodup_cons.mp h1).1
    constructor
    · intro hmem; exact h2 (List.mem_append_left _ hmem)
    · intro hmem; exact h2 (List.mem_append_right _ hmem)
  have hallF1 : ∀ y ∈ l₁.filter ignore_monitor_devs, y.index ≠ x.index := by
    intro y hy hcon
    have hym : y ∈ l₁ := (List.mem_filter.mp hy).1
    have := hall y hym
    rw [hcon] at this
    simp at this
  have hallF2 : ∀ y ∈ l₂.filter ignore_monitor_devs, y.index ≠ x.index := by
    intro y hy hcon
    have hym : y ∈ l₂ := (List.mem_filter.mp hy).1
    exact hnotin.2 (hcon ▸ List.mem_map_of_mem DeviceInfo.index hym)
  -- the starting point sits exactly at position `(l₁.filter _).length` of E
  have hq : E[i]? = some x := by
    rw [List.getElem?_eq_getElem hi, hxdef]
    rfl
  rw [hEeq] at hq
  have hiF : i = (l₁.filter ignore_monitor_devs).length := by
    rcases Nat.lt_trichotomy i (l₁.filter ignore_monitor_devs).length with hlt | heqi | hgt
    · rw [List.getElem?_append_left hlt] at hq
      obtain ⟨hb, hbx⟩ := List.getElem?_eq_some.mp hq
      have : x ∈ l₁.filter ignore_monitor_devs := hbx ▸ List.getElem_mem hb
      exact absurd rfl (hallF1 x this)
    · exact heqi
    · rw [List.getElem?_append_right (Nat.le_of_lt hgt)] at hq
      obtain ⟨k, hk⟩ : ∃ k, i - (l₁.filter ignore_monitor_devs).length = k + 1 :=
        ⟨i - (l₁.filter ignore_monitor_devs).length - 1, by omega⟩
      rw [hk, List.getElem?_cons_succ] at hq
      obtain ⟨hb, hbx⟩ := List.getElem?_eq_some.mp hq
      have : x ∈ l₂.filter ignore_monitor_devs := hbx ▸ List.getElem_mem hb
      exact absurd rfl (hallF2 x this)
  rw [hsel, List.filter_append, ← hE]
  cases hF2 : l₂.filter ignore_monitor_devs with
  | nil =>
    have hN : E.length = (l₁.filter ignore_monitor_devs).length + 1 := by
      rw [hEeq, hF2]; simp
    have hN0 : 0 < E.length := by omega
    have hmod : (i + 1) % E.length = 0 := by
      rw [hiF]
      have : (l₁.filter ignore_monitor_devs).length + 1 = E.length := hN.symm
      rw [this, Nat.mod_self]
    have hhead : E.head? = some (E.get ⟨0, hN0⟩) := by
      rw [List.head?_eq_getElem?, List.getElem?_eq_getElem hN0]
      rfl
    rw [List.nil_append, hhead]
    exact congrArg some (get_congr_idx E 0 _ hN0 hsucc hmod.symm)
  | cons c F2t =>
    have hEeq2 : E = (l₁.filter ignore_monitor_devs ++ [x]) ++ c :: F2t := by
      rw [hEeq, hF2]; simp
    have hlen2 : (l₁.filter ignore_monitor_devs ++ [x]).length = i + 1 := by
      rw [hiF]; simp
    have hi1 : i + 1 < E.length := by
      rw [hEeq2]; simp only [List.length_append, List.length_cons]; omega
    have hmod : (i + 1) % E.length = i + 1 := Nat.mod_eq_of_lt hi1
    have hget : E.get ⟨i + 1, hi1⟩ = c := by
      obtain ⟨y, hq3, hy⟩ :
          ∃ y, E[i + 1]? = some y ∧ E.get ⟨i + 1, hi1⟩ = y :=
        ⟨_, by rw [List.getElem?_eq_getElem hi1]; rfl, rfl⟩
      rw [hEeq2, List.getElem?_append_right hlen2.le, hlen2] at hq3
      simp only [Nat.sub_self, List.getElem?_cons_zero] at hq3
      rw [hy, ← Option.some.inj hq3]
    rw [List.cons_append]
    show some c = some (E.get ⟨(i + 1) % E.length, hsucc⟩)
    rw [← hget]
    exact congrArg some (get_congr_idx E (i + 1) _ hi1 hsucc hmod.symm)

/-- Iterating the forward step `k` times advances the position by `k`,
modulo the number of eligible devices. -/
theorem stepN_forward_get (l E : List DeviceInfo)
    (hE : E = l.filter ignore_monitor_devs)
    (hnd : (l.map DeviceInfo.index).Nodup) :
    ∀ (k i : Nat) (hi : i < E.length) (hk : (i + k) % E.length < E.length),
      stepN l Direction.Forward k (E.get ⟨i, hi⟩)
        = some (E.get ⟨(i + k) % E.length, hk⟩) := by
  intro k
  induction k with
  | zero =>
    intro i hi hk
    exact congrArg some
      (get_congr_idx E i _ hi hk (by rw [Nat.add_zero, Nat.mod_eq_of_lt hi]))
  | succ k ih =>
    intro i hi hk
    have hN0 : 0 < E.length := Nat.lt_of_le_of_lt (Nat.zero_le i) hi
    have h1 : (i + 1) % E.length < E.length := Nat.mod_lt _ hN0
    have h2 : ((i + 1) % E.length + k) % E.length < E.length := Nat.mod_lt _ hN0
    have hidx : ((i + 1) % E.length + k) % E.length = (i + (k + 1)) % E.length := by
      rw [Nat.mod_add_mod]
      congr 1
      omega
    calc stepN l Direction.Forward (k + 1) (E.get ⟨i, hi⟩)
        = (next_dev_select l Direction.Forward (E.get ⟨i, hi⟩)).bind
            (stepN l Direction.Forward k) := rfl
      _ = (some (E.get ⟨(i + 1) % E.length, h1⟩)).bind
            (stepN l Direction.Forward k) := by
            rw [step_forward_get l E hE hnd i hi h1]
      _ = stepN l Direction.Forward k (E.get ⟨(i + 1) % E.length, h1⟩) := rfl
      _ = some (E.get ⟨((i + 1) % E.length + k) % E.length, h2⟩) :=
            ih ((i + 1) % E.length) h1 h2
      _ = some (E.get ⟨(i + (k + 1)) % E.length, hk⟩) :=
            congrArg some (get_congr_idx E _ _ h2 hk hidx)

/-- One backward cycling step from the `i`-th eligible device lands on the
`(i + N - 1) mod N`-th eligible device: the cyclic predecessor. -/
theorem step_backward_get (l E : List DeviceInfo)
    (hE : E = l.filter ignore_monitor_devs)
    (hnd : (l.map DeviceInfo.index).Nodup)
    (i : Nat) (hi : i < E.length)
    (hpred : (i + E.length - 1) % E.length < E.length) :
    next_dev_select l Direction.Backward (E.get ⟨i, hi⟩)
      = some (E.get ⟨(i + E.length - 1) % E.length, hpred⟩) := by
  have hN0 : 0 < E.length := Nat.lt_of_le_of_lt (Nat.zero_le i) hi
  have hE' : E.reverse = l.reverse.filter ignore_monitor_devs := by
    rw [List.filter_reverse, hE]
  have hnd' : (l.reverse.map DeviceInfo.index).Nodup := by
    rw [List.map_reverse]
    exact List.nodup_reverse.mpr hnd
  have hj : E.length - 1 - i < E.reverse.length := by
    rw [List.length_reverse]; omega
  have hx : E.reverse.get ⟨E.length - 1 - i, hj⟩ = E.get ⟨i, hi⟩ := by
    rw [get_reverse_eq E (E.length - 1 - i) hj (by omega)]
    exact get_congr_idx E _ i (by omega) hi (by omega)
  have hsucc' : (E.length - 1 - i + 1) % E.reverse.length < E.reverse.length := by
    rw [List.length_reverse]; exact Nat.mod_lt _ hN0
  rw [select_backward_eq, ← hx,
    step_forward_get l.reverse E.reverse hE' hnd' (E.length - 1 - i) hj hsucc']
  refine congrArg some ?_
  have harith : E.length - 1 - ((E.length - 1 - i + 1) % E.reverse.length)
      = (i + E.length - 1) % E.length := by
    rw [List.length_reverse]
    rcases Nat.eq_zero_or_pos i with rfl | hpos
    · have h1 : E.length - 1 - 0 + 1 = E.length := by omega
      rw [h1, Nat.mod_self]
      have h2 : 0 + E.length - 1 = E.length - 1 := by omega
      rw [h2, Nat.mod_eq_of_lt (by omega)]
      omega
    · have h1 : E.length - 1 - i + 1 = E.length - i := by omega
      rw [h1, Nat.mod_eq_of_lt (by omega)]
      have h2 : i + E.length - 1 = E.length + (i - 1) := by omega
      rw [h2, Nat.add_mod_left, Nat.mod_eq_of_lt (by omega)]
      omega
  rw [get_reverse_eq E _ hsucc' (by omega)]
  exact get_congr_idx E _ _ (by omega) hpred harith

/-- `main_model` on a nonempty catalog: the empty-catalog early return is not
taken, the rest of `main` runs. -/
theorem main_model_cons (a : DeviceInfo) (rest : List DeviceInfo)
    (io_class : InputOutput) (s : Store) (action : Option Action)
    (status : Option Status) (apps : List Nat) :
    main_model (a :: rest) io_class s action status apps
      = match get_default_device (a :: rest) io_class s with
        | none => none
        | some (prev, s1, eff1) =>
          action_tail (a :: rest) io_class prev apps s1 eff1 action status := rfl

/-- `main_model` once the current device resolved to `prev`. -/
theorem main_model_gd (a : DeviceInfo) (rest : List DeviceInfo)
    (io_class : InputOutput) (s : Store) (action : Option Action)
    (status : Option Status) (apps : List Nat) (prev : DeviceInfo) (s1 : Store)
    (eff1 : List Effect)
    (hgd : get_default_device (a :: rest) io_class s = some (prev, s1, eff1)) :
    main_model (a :: rest) io_class s action status apps
      = action_tail (a :: rest) io_class prev apps s1 eff1 action status := by
  rw [main_model_cons, hgd]

/-- `main_model` when current-device resolution fails. -/
theorem main_model_gd_none (a : DeviceInfo) (rest : List DeviceInfo)
    (io_class : InputOutput) (s : Store) (action : Option Action)
    (status : Option Status) (apps : List Nat)
    (hgd : get_default_device (a :: rest) io_class s = none) :
    main_model (a :: rest) io_class s action status apps = none := by
  rw [main_model_cons, hgd]

/-- `next_dev` fails exactly when no eligible device exists; when it
succeeds, the store it leaves behind holds the target's index, which resolves
in the catalog. -/
theorem next_dev_run (devices : List DeviceInfo) (dir : Direction)
    (prev : DeviceInfo) (io_class : InputOutput) (apps : List Nat) (s1 : Store)
    (hwf : ∀ d ∈ devices, d.index < 4294967296) (hprev : prev ∈ devices) :
    (next_dev devices dir prev io_class apps s1 = none
      ↔ devices.filter ignore_monitor_devs = []) ∧
    (∀ s2 eff2, next_dev devices dir prev io_class apps s1 = some (s2, eff2) →
      ∃ k, read_device_index s2 io_class = some k ∧
        (devices.find? (fun d => d.index == k)).isSome = true) := by
  constructor
  · constructor
    · intro h
      cases hfe : devices.filter ignore_monitor_devs with
      | nil => rfl
      | cons e t =>
        have he : e ∈ devices.filter ignore_monitor_devs := by
          rw [hfe]
          exact List.mem_cons_self e t
        have helig : ∃ d ∈ devices, ignore_monitor_devs d = true :=
          ⟨e, (List.mem_filter.mp he).1, (List.mem_filter.mp he).2⟩
        have hs := select_isSome_of_elig devices dir prev ⟨prev, hprev, rfl⟩ helig
        rcases ho : next_dev_select devices dir prev with _ | tgt
        · rw [ho] at hs
          simp at hs
        · unfold next_dev at h
          rw [ho] at h
          simp at h
    · intro h
      unfold next_dev
      rw [select_none_of_no_elig devices dir prev h]
  · intro s2 eff2 h
    rcases ho : next_dev_select devices dir prev with _ | tgt
    · unfold next_dev at h
      rw [ho] at h
      simp at h
    · unfold next_dev at h
      rw [ho] at h
      have hs2 : write_device_index s1 io_class tgt.index = s2 :=
        congrArg Prod.fst (Option.some.inj h)
      obtain ⟨htgt, -⟩ := select_mem ho
      refine ⟨tgt.index, ?_, ?_⟩
      · rw [← hs2]
        exact read_after_write s1 io_class tgt.index (hwf tgt htgt)
      · exact List.find?_isSome.mpr ⟨tgt, htgt, by simp⟩

/-- The status block succeeds whenever the store resolves to a live device
(the re-read `unwrap` and the indexed lookup both succeed). -/
theorem status_block_some (devices : List DeviceInfo) (io_class : InputOutput)
    (s2 : Store) (eff : List Effect) (status : Option Status)
    (hgood : ∃ k, read_device_index s2 io_class = some k ∧
      (devices.find? (fun d => d.index == k)).isSome = true) :
    ∃ r, status_block devices io_class s2 eff status = some r := by
  obtain ⟨k, hk, hfind⟩ := hgood
  cases status with
  | none => exact ⟨(s2, eff), rfl⟩
  | some st =>
    rcases hf : devices.find? (fun d => d.index == k) with _ | info
    · rw [hf] at hfind
      simp at hfind
    · refine ⟨(s2, eff ++ [statusEffect st info]), ?_⟩
      simp only [status_block, hk, hf]

/-- After a successful current-device resolution that left the store in a
live state, the rest of `main` fails exactly when the action is a cycling
action (Next/Prev) and no eligible device exists. -/
theorem action_tail_none_iff (devices : List DeviceInfo)
    (io_class : InputOutput) (prev : DeviceInfo) (apps : List Nat) (s1 : Store)
    (eff1 : List Effect) (action : Option Action) (status : Option Status)
    (hwf : ∀ d ∈ devices, d.index < 4294967296) (hprev : prev ∈ devices)
    (hgood : ∃ k, read_device_index s1 io_class = some k ∧
      (devices.find? (fun d => d.index == k)).isSome = true) :
    action_tail devices io_class prev apps s1 eff1 action status = none
      ↔ (devices.filter ignore_monitor_devs = []
          ∧ (action = some Action.Next ∨ action = some Action.Prev)) := by
  have hcyc : ∀ dir : Direction,
      (next_dev devices dir prev io_class apps s1 = none
        ↔ devices.filter ignore_monitor_devs = []) ∧
      (∀ s2 eff2,
        next_dev devices dir prev io_class apps s1 = some (s2, eff2) →
        ∃ r, status_block devices io_class s2 (eff1 ++ eff2) status = some r) :=
    fun dir =>
      ⟨(next_dev_run devices dir prev io_class apps s1 hwf hprev).1,
       fun s2 eff2 h => status_block_some devices io_class s2 (eff1 ++ eff2)
         status ((next_dev_run devices dir prev io_class apps s1 hwf hprev).2
           s2 eff2 h)⟩
  have hcycle : ∀ (dir : Direction) (act : Action),
      dispatch_action devices io_class prev apps s1 (some act)
          = next_dev devices dir prev io_class apps s1 →
      ((some act : Option Action) = some Action.Next
        ∨ (some act : Option Action) = some Action.Prev) →
      (action_tail devices io_class prev apps s1 eff1 (some act) status = none
        ↔ (devices.filter ignore_monitor_devs = []
            ∧ ((some act : Option Action) = some Action.Next
              ∨ (some act : Option Action) = some Action.Prev))) := by
    intro dir act hde hor
    rcases hnd2 : next_dev devices dir prev io_class apps s1 with _ | ⟨s2, eff2⟩
    · have hred : action_tail devices io_class prev apps s1 eff1 (some act)
          status = none := by
        unfold action_tail
        rw [hde, hnd2]
      rw [hred]
      constructor
      · intro _
        exact ⟨(hcyc dir).1.mp hnd2, hor⟩
      · intro _
        rfl
    · obtain ⟨r, hrr⟩ := (hcyc dir).2 s2 eff2 hnd2
      have hred : action_tail devices io_class prev apps s1 eff1 (some act)
          status = some r := by
        unfold action_tail
        rw [hde, hnd2]
        exact hrr
      rw [hred]
      constructor
      · intro h
        simp at h
      · rintro ⟨hfe, -⟩
        rw [(hcyc dir).1.mpr hfe] at hnd2
        simp at hnd2
  rcases action with _ | act
  · obtain ⟨r, hrr⟩ :=
      status_block_some devices io_class s1 (eff1 ++ []) status hgood
    have hred : action_tail devices io_class prev apps s1 eff1 none status
        = status_block devices io_class s1 (eff1 ++ []) status := rfl
    rw [hred, hrr]
    constructor
    · intro h
      simp at h
    · rintro ⟨-, hor⟩
      rcases hor with h | h <;> simp at h
  · cases act with
    | Next => exact hcycle Direction.Forward Action.Next rfl (Or.inl rfl)
    | Prev => exact hcycle Direction.Backward Action.Prev rfl (Or.inr rfl)
    | Mute =>
      obtain ⟨r, hrr⟩ := status_block_some devices io_class s1
        (eff1 ++ [Effect.setMute prev.index (!prev.mute)]) status hgood
      have hred : action_tail devices io_class prev apps s1 eff1
          (some Action.Mute) status
          = status_block devices io_class s1
              (eff1 ++ [Effect.setMute prev.index (!prev.mute)]) status := rfl
      rw [hred, hrr]
      constructor
      · intro h
        simp at h
      · rintro ⟨-, hor⟩
        rcases hor with h | h <;> simp at h
    | Inc =>
      obtain ⟨r, hrr⟩ := status_block_some devices io_class s1
        (eff1 ++ [Effect.incVolume prev.index]) status hgood
      have hred : action_tail devices io_class prev apps s1 eff1
          (some Action.Inc) status
          = status_block devices io_class s1
              (eff1 ++ [Effect.incVolume prev.index]) status := rfl
      rw [hred, hrr]
      constructor
      · intro h
        simp at h
      · rintro ⟨-, hor⟩
        rcases hor with h | h <;> simp at h
    | Dec =>
      obtain ⟨r, hrr⟩ := status_block_some devices io_class s1
        (eff1 ++ [Effect.decVolume prev.index]) status hgood
      have hred : action_tail devices io_class prev apps s1 eff1
          (some Action.Dec) status
          = status_block devices io_class s1
              (eff1 ++ [Effect.decVolume prev.index]) status := rfl
      rw [hred, hrr]
      constructor
      · intro h
        simp at h
      · rintro ⟨-, hor⟩
        rcases hor with h | h <;> simp at h

/-! ## Concrete devices and stores for witnesses and counterexamples -/

/-- An eligible device with index 0. -/
def devAlpha : DeviceInfo := ⟨0, some "alpha", none, false, 50⟩

/-- An eligible device with index 1. -/
def devBeta : DeviceInfo := ⟨1, some "beta", none, false, 50⟩

/-- A monitor device with index 2 (mixed-case name). -/
def devMon : DeviceInfo := ⟨2, some "Monitor of alpha", none, false, 50⟩

/-- The scenario devices of the spec: `A` eligible. -/
def devA : DeviceInfo := ⟨10, some "a", some "card A", false, 50⟩

/-- The scenario devices of the spec: `B` is a monitor (upper-case name,
exercising the case-insensitive match). -/
def devB : DeviceInfo := ⟨11, some "MONITOR of a", some "card B", false, 50⟩

/-- The scenario devices of the spec: `C` eligible. -/
def devC : DeviceInfo := ⟨12, some "c", some "card C", false, 50⟩

/-- A single eligible device with index 5. -/
def devSolo : DeviceInfo := ⟨5, some "solo", none, false, 50⟩

/-- The store with both state files never written (empty content). -/
def emptyStore : Store := ⟨"", ""⟩

/-! ## Claims -/

/-- C2: Cycling is a permutation walk over the eligible subsequence.  For a
catalog with pairwise distinct device indices (device identity is by index
within one server snapshot), at least two eligible devices, and an eligible
starting device in the catalog: `N` forward steps (each `next_dev` feeding
its target back in as the next `prev`) return to the start, and one backward
step followed by one forward step returns to the start. -/
theorem C2_cycle_roundtrip (l : List DeviceInfo)
    (hnd : (l.map DeviceInfo.index).Nodup) (x : DeviceInfo) (hx : x ∈ l)
    (hex : ignore_monitor_devs x = true)
    (hN : 2 ≤ (l.filter ignore_monitor_devs).length) :
    stepN l Direction.Forward (l.filter ignore_monitor_devs).length x = some x ∧
    (next_dev_select l Direction.Backward x).bind
      (fun y => next_dev_select l Direction.Forward y) = some x := by
  set E := l.filter ignore_monitor_devs with hE
  have hxE : x ∈ E := by rw [hE]; exact List.mem_filter.mpr ⟨hx, hex⟩
  obtain ⟨⟨i, hi⟩, hxi⟩ := List.mem_iff_get.mp hxE
  subst hxi
  have hN0 : 0 < E.length := by omega
  constructor
  · have hk : (i + E.length) % E.length < E.length := Nat.mod_lt _ hN0
    rw [stepN_forward_get l E hE hnd E.length i hi hk]
    exact congrArg some (get_congr_idx E _ i hk hi
      (by rw [Nat.add_mod_right, Nat.mod_eq_of_lt hi]))
  · have hpred : (i + E.length - 1) % E.length < E.length := Nat.mod_lt _ hN0
    rw [step_backward_get l E hE hnd i hi hpred]
    show next_dev_select l Direction.Forward
        (E.get ⟨(i + E.length - 1) % E.length, hpred⟩) = some (E.get ⟨i, hi⟩)
    rw [step_forward_get l E hE hnd _ hpred (Nat.mod_lt _ hN0)]
    refine congrArg some (get_congr_idx E _ i (Nat.mod_lt _ hN0) hi ?_)
    rw [Nat.mod_add_mod]
    have h3 : i + E.length - 1 + 1 = i + E.length := by omega
    rw [h3, Nat.add_mod_right, Nat.mod_eq_of_lt hi]

/-- Witness for C2 on the two-device catalog `[alpha, beta]`. -/
theorem C2_cycle_roundtrip_witness :
    stepN [devAlpha, devBeta] Direction.Forward
        ([devAlpha, devBeta].filter ignore_monitor_devs).length devAlpha
      = some devAlpha ∧
    (next_dev_select [devAlpha, devBeta] Direction.Backward devAlpha).bind
      (fun y => next_dev_select [devAlpha, devBeta] Direction.Forward y)
      = some devAlpha :=
  C2_cycle_roundtrip [devAlpha, devBeta] (by decide) devAlpha (by decide)
    (by decide) (by decide)

/-- C3: A device selected as a cycle target by `next_dev` is never a monitor
device, for every catalog, direction and starting device; and eligibility is
exactly "the (empty-when-absent) name, lowercased, does not contain the
substring `monitor`". -/
theorem C3_no_monitor_target :
    (∀ (devices : List DeviceInfo) (dir : Direction) (prev d : DeviceInfo),
      next_dev_select devices dir prev = some d → ignore_monitor_devs d = true) ∧
    (∀ d : DeviceInfo, ignore_monitor_devs d
        = !(hasSub (lowerChars (d.name.getD "")) ("monitor".data))) :=
  ⟨fun _ _ _ _ h => (select_mem h).2, fun _ => rfl⟩

/-- Witness for C3: the target selected from `[alpha, beta]` starting at
`alpha` is eligible. -/
theorem C3_no_monitor_target_witness : ignore_monitor_devs devBeta = true :=
  C3_no_monitor_target.1 [devAlpha, devBeta] Direction.Forward devAlpha devBeta
    (by decide)

/-- C10: whenever some device of the catalog carries `prev`'s index and at
least one eligible device exists, the search pipeline finds a device: the
terminal `expect` cannot panic and `next_dev` completes. -/
theorem C10_no_panic (devices : List DeviceInfo) (dir : Direction)
    (prev : DeviceInfo) (io_class : InputOutput) (apps : List Nat) (s : Store)
    (hprev : ∃ d ∈ devices, d.index = prev.index)
    (helig : ∃ d ∈ devices, ignore_monitor_devs d = true) :
    (next_dev devices dir prev io_class apps s).isSome = true := by
  have h := select_isSome_of_elig devices dir prev hprev helig
  rcases ho : next_dev_select devices dir prev with _ | nd
  · rw [ho] at h
    simp at h
  · unfold next_dev
    rw [ho]
    rfl

/-- Witness for C10 on the catalog `[alpha, beta]`. -/
theorem C10_no_panic_witness :
    (next_dev [devAlpha, devBeta] Direction.Forward devAlpha
      InputOutput.Output [] emptyStore).isSome = true :=
  C10_no_panic [devAlpha, devBeta] Direction.Forward devAlpha
    InputOutput.Output [] emptyStore
    ⟨devAlpha, by decide, rfl⟩ ⟨devAlpha, by decide, by decide⟩

/-- C7: `read_device_index` yields `some` of a persisted (written) index, and
`none` on never-set (empty) or corrupt content — a parse failure is an
ordinary `none`, never an error. -/
theorem C7_read_device_index :
    (∀ (s : Store) (io_class : InputOutput), getSlot s io_class = "" →
      read_device_index s io_class = none) ∧
    (∀ (s : Store) (io_class : InputOutput) (n : Nat), n < 4294967296 →
      read_device_index (write_device_index s io_class n) io_class = some n) ∧
    (∀ (s : Store) (io_class : InputOutput),
      (getSlot s io_class).data.head? ≠ some '+' →
      (getSlot s io_class).data.all Char.isDigit = false →
      read_device_index s io_class = none) := by
  refine ⟨?_, ?_, ?_⟩
  · intro s io_class h
    show parseU32Chars (getSlot s io_class).data = none
    rw [h]
    decide
  · intro s io_class n hn
    exact read_after_write s io_class n hn
  · intro s io_class h1 h2
    show parseU32Chars (getSlot s io_class).data = none
    have hsp : stripPlus (getSlot s io_class).data = (getSlot s io_class).data := by
      unfold stripPlus
      rw [if_neg h1]
    unfold parseU32Chars
    rw [hsp, h2]
    cases hcs : (getSlot s io_class).data with
    | nil =>
      rw [hcs] at h2
      simp at h2
    | cons c t =>
      rw [if_neg (by simp), if_neg (by simp)]

/-- Witness for C7: empty content reads as unset; a written index reads back;
corrupt content reads as unset. -/
theorem C7_read_device_index_witness :
    read_device_index emptyStore InputOutput.Input = none ∧
    read_device_index (write_device_index emptyStore InputOutput.Output 7)
      InputOutput.Output = some 7 ∧
    read_device_index ⟨"garbage", "garbage"⟩ InputOutput.Input = none :=
  ⟨C7_read_device_index.1 emptyStore InputOutput.Input rfl,
   C7_read_device_index.2.1 emptyStore InputOutput.Output 7 (by decide),
   C7_read_device_index.2.2 ⟨"garbage", "garbage"⟩ InputOutput.Input
     (by decide) (by decide)⟩

/-- C8: on an empty device list, the run reports "No devices found", exits
with status 0, performs no other side effect, and leaves the store
untouched — for every action, status query, store and app list. -/
theorem C8_empty_catalog (io_class : InputOutput) (s : Store)
    (action : Option Action) (status : Option Status) (apps : List Nat) :
    main_model [] io_class s action status apps
      = some (s, [Effect.report "No devices found"]) := rfl

/-- C5: on the catalog `[A(eligible), B(monitor), C(eligible)]` with persisted
index `A.index`, Next selects `C` (skipping the monitor `B`) and rewrites the
persisted index to `C.index`. -/
theorem C5_scenario :
    next_dev_select [devA, devB, devC] Direction.Forward devA = some devC ∧
    main_model [devA, devB, devC] InputOutput.Output ⟨"", "10"⟩
        (some Action.Next) none []
      = some (⟨"", "12"⟩,
          [Effect.setDefaultDevice "c", Effect.writeIndex InputOutput.Output 12]) ∧
    read_device_index (⟨"", "12"⟩ : Store) InputOutput.Output = some 12 := by
  refine ⟨by decide, by decide, by decide⟩

/-- C1 counterexample: the two stale-state cases are NOT handled identically.
With catalog `[Monitor, beta]` and an *absent* persisted index,
`get_default_device` returns the monitor device — the head of the raw,
unfiltered catalog (`main.rs` line 57 uses `.first()` with no monitor
filter) — not the first eligible device `beta`. -/
theorem C1_counterexample :
    (get_default_device [devMon, devBeta] InputOutput.Output emptyStore).map
        (fun r => r.1) = some devMon ∧
    ([devMon, devBeta].filter ignore_monitor_devs).head? = some devBeta ∧
    devMon ≠ devBeta := by decide

/-- C1 amended: both fallback cases persist the chosen device's index (and
the store then resolves to it: self-healing), but they differ — an absent
index falls back to the first *raw* catalog device, while a stale index
falls back to the first *eligible* device. -/
theorem C1_fallback (devices : List DeviceInfo) (io_class : InputOutput)
    (s : Store) :
    (read_device_index s io_class = none → ∀ d, devices.head? = some d →
      get_default_device devices io_class s
          = some (d, write_device_index s io_class d.index,
              [Effect.writeIndex io_class d.index])
        ∧ (d.index < 4294967296 →
            read_device_index (write_device_index s io_class d.index) io_class
              = some d.index)) ∧
    (∀ idx, read_device_index s io_class = some idx →
      devices.find? (fun d => d.index == idx) = none →
      ∀ e, (devices.filter ignore_monitor_devs).head? = some e →
      get_default_device devices io_class s
          = some (e, write_device_index s io_class e.index,
              [Effect.writeIndex io_class e.index])
        ∧ (e.index < 4294967296 →
            read_device_index (write_device_index s io_class e.index) io_class
              = some e.index)) := by
  constructor
  · intro hr d hd
    refine ⟨?_, fun hb => read_after_write s io_class d.index hb⟩
    simp only [get_default_device, hr, hd]
  · intro idx hr hf e he
    refine ⟨?_, fun hb => read_after_write s io_class e.index hb⟩
    simp only [get_default_device, hr, hf, he]

/-- Witness for C1 amended: the absent case returns the raw head (a monitor),
the stale case returns the first eligible device. -/
theorem C1_fallback_witness :
    get_default_device [devMon, devBeta] InputOutput.Output emptyStore
        = some (devMon, write_device_index emptyStore InputOutput.Output devMon.index,
            [Effect.writeIndex InputOutput.Output devMon.index]) ∧
    get_default_device [devMon, devBeta] InputOutput.Output ⟨"", "99"⟩
        = some (devBeta, write_device_index ⟨"", "99"⟩ InputOutput.Output devBeta.index,
            [Effect.writeIndex InputOutput.Output devBeta.index]) :=
  ⟨((C1_fallback [devMon, devBeta] InputOutput.Output emptyStore).1
      (by decide) devMon rfl).1,
   ((C1_fallback [devMon, devBeta] InputOutput.Output ⟨"", "99"⟩).2 99
      (by decide) (by decide) devBeta (by decide)).1⟩

/-- C4 counterexample: with exactly one eligible device, Next is NOT a no-op:
`next_dev` still rewrites the persisted index (`main.rs` line 160 runs
unconditionally) and re-applies the default. -/
theorem C4_counterexample :
    next_dev [devSolo] Direction.Forward devSolo InputOutput.Output [] emptyStore
        = some (⟨"", "5"⟩,
            [Effect.setDefaultDevice "solo",
             Effect.writeIndex InputOutput.Output 5]) ∧
    (⟨"", "5"⟩ : Store) ≠ emptyStore := by decide

/-- C4 amended: with exactly one eligible device `e`, Next and Prev select
`e` as the target and still perform the full application: streams moved,
default set to `e`, persisted index rewritten to `e.index`. -/
theorem C4_singleton (devices : List DeviceInfo) (dir : Direction)
    (prev : DeviceInfo) (io_class : InputOutput) (apps : List Nat) (s : Store)
    (e : DeviceInfo) (he : devices.filter ignore_monitor_devs = [e])
    (hprev : ∃ d ∈ devices, d.index = prev.index) :
    next_dev devices dir prev io_class apps s
      = some (write_device_index s io_class e.index,
          set_default apps e.index ++
            [Effect.setDefaultDevice (e.name.getD ""),
             Effect.writeIndex io_class e.index]) := by
  have hmemF : e ∈ devices.filter ignore_monitor_devs := by
    rw [he]
    exact List.mem_cons_self e []
  have helig : ∃ d ∈ devices, ignore_monitor_devs d = true :=
    ⟨e, (List.mem_filter.mp hmemF).1, (List.mem_filter.mp hmemF).2⟩
  have hs := select_isSome_of_elig devices dir prev hprev helig
  rcases ho : next_dev_select devices dir prev with _ | t
  · rw [ho] at hs
    simp at hs
  · obtain ⟨htl, hte⟩ := select_mem ho
    have htF : t ∈ devices.filter ignore_monitor_devs :=
      List.mem_filter.mpr ⟨htl, hte⟩
    rw [he] at htF
    have ht : t = e := by simpa using htF
    unfold next_dev
    rw [ho, ht]

/-- Witness for C4 amended on the singleton catalog `[solo]`. -/
theorem C4_singleton_witness :
    next_dev [devSolo] Direction.Backward devSolo InputOutput.Output []
        emptyStore
      = some (write_device_index emptyStore InputOutput.Output devSolo.index,
          set_default [] devSolo.index ++
            [Effect.setDefaultDevice (devSolo.name.getD ""),
             Effect.writeIndex InputOutput.Output devSolo.index]) :=
  C4_singleton [devSolo] Direction.Backward devSolo InputOutput.Output []
    emptyStore devSolo (by decide) ⟨devSolo, by decide, rfl⟩

/-- C6 counterexample: fresh state (no persisted index) with catalog
`[alpha, beta]` (both eligible) and action Next: the applied target is
`beta`, not the first eligible device `alpha` — the code resolves current to
the raw first device and cycles from it, it does not return the first
eligible device. -/
theorem C6_counterexample :
    main_model [devAlpha, devBeta] InputOutput.Output emptyStore
        (some Action.Next) none []
      = some (⟨"", "1"⟩,
          [Effect.writeIndex InputOutput.Output 0,
           Effect.setDefaultDevice "beta",
           Effect.writeIndex InputOutput.Output 1]) ∧
    ([devAlpha, devBeta].filter ignore_monitor_devs).head? = some devAlpha ∧
    devBeta ≠ devAlpha := by decide

/-- C6 amended: on fresh state, `main` resolves current to the first raw
catalog device `d0`, persists `d0.index`, and Next/Prev then cycles *from*
`d0` (in the direction requested): the applied target is
`next_dev_select … d0`, which in general differs from the first eligible
device. -/
theorem C6_fresh_cycles (devices : List DeviceInfo) (io_class : InputOutput)
    (s : Store) (apps : List Nat) (act : Action) (dir : Direction)
    (hfresh : read_device_index s io_class = none)
    (d0 : DeviceInfo) (hd0 : devices.head? = some d0)
    (helig : ∃ d ∈ devices, ignore_monitor_devs d = true)
    (hact : (act = Action.Next ∧ dir = Direction.Forward) ∨
            (act = Action.Prev ∧ dir = Direction.Backward)) :
    ∃ t, next_dev_select devices dir d0 = some t ∧
      main_model devices io_class s (some act) none apps
        = some (write_device_index (write_device_index s io_class d0.index)
              io_class t.index,
            Effect.writeIndex io_class d0.index ::
              (set_default apps t.index ++
                [Effect.setDefaultDevice (t.name.getD ""),
                 Effect.writeIndex io_class t.index])) := by
  have hd0m : d0 ∈ devices := mem_of_head?_eq_some hd0
  have hsome := select_isSome_of_elig devices dir d0 ⟨d0, hd0m, rfl⟩ helig
  rcases ho : next_dev_select devices dir d0 with _ | t
  · rw [ho] at hsome
    simp at hsome
  · refine ⟨t, rfl, ?_⟩
    rcases devices with _ | ⟨a, rest⟩
    · simp at hd0
    · have hgd : get_default_device (a :: rest) io_class s
          = some (d0, write_device_index s io_class d0.index,
              [Effect.writeIndex io_class d0.index]) := by
        simp only [get_default_device, hfresh, hd0]
      have hdisp : dispatch_action (a :: rest) io_class d0 apps
            (write_device_index s io_class d0.index) (some act)
          = next_dev (a :: rest) dir d0 io_class apps
              (write_device_index s io_class d0.index) := by
        rcases hact with ⟨ha, hd⟩ | ⟨ha, hd⟩ <;> rw [ha, hd] <;> rfl
      simp only [main_model_cons, hgd, action_tail, hdisp, next_dev, ho,
        status_block, List.singleton_append]

/-- C9 counterexample: with a nonempty catalog whose only device is a
monitor, fresh state and action Next, the process exits non-zero (the
`expect` in `next_dev` panics) even though the DeviceService was reached
(it returned a catalog). -/
theorem C9_counterexample :
    main_model [devMon] InputOutput.Output emptyStore (some Action.Next)
        none [] = none ∧
    ([devMon] : List DeviceInfo) ≠ [] := by decide

/-- C9 amended: given a reachable service (a catalog), a run exits non-zero
exactly when the catalog is nonempty, contains no eligible device, and
either the persisted index is stale or the action is Next/Prev; every other
run — including "no devices found" — exits 0.  (Device indices are u32
values, hence the bound.) -/
theorem C9_exit_status (devices : List DeviceInfo) (io_class : InputOutput)
    (s : Store) (action : Option Action) (status : Option Status)
    (apps : List Nat) (hwf : ∀ d ∈ devices, d.index < 4294967296) :
    main_model devices io_class s action status apps = none
      ↔ (devices ≠ [] ∧ devices.filter ignore_monitor_devs = []
          ∧ (staleB s io_class devices = true ∨ action = some Action.Next
             ∨ action = some Action.Prev)) := by
  rcases devices with _ | ⟨a, rest⟩
  · have h0 : main_model [] io_class s action status apps
        = some (s, [Effect.report "No devices found"]) := rfl
    rw [h0]
    simp
  · rcases hr : read_device_index s io_class with _ | idx
    · have hstale : staleB s io_class (a :: rest) = false := by
        simp [staleB, hr]
      have hgd : get_default_device (a :: rest) io_class s
          = some (a, write_device_index s io_class a.index,
              [Effect.writeIndex io_class a.index]) := by
        simp only [get_default_device, hr, List.head?_cons]
      rw [main_model_gd a rest io_class s action status apps _ _ _ hgd]
      have hgood : ∃ k,
          read_device_index (write_device_index s io_class a.index) io_class
            = some k ∧
          ((a :: rest).find? (fun d => d.index == k)).isSome = true :=
        ⟨a.index,
         read_after_write s io_class a.index (hwf a (List.mem_cons_self a rest)),
         List.find?_isSome.mpr ⟨a, List.mem_cons_self a rest, by simp⟩⟩
      rw [action_tail_none_iff (a :: rest) io_class a apps _ _ action status
        hwf (List.mem_cons_self a rest) hgood, hstale]
      simp
    · rcases hf : (a :: rest).find? (fun d => d.index == idx) with _ | dev
      · have hstale : staleB s io_class (a :: rest) = true := by
          simp [staleB, hr, hf]
        cases hfe : (a :: rest).filter ignore_monitor_devs with
        | nil =>
          have hgd : get_default_device (a :: rest) io_class s = none := by
            simp only [get_default_device, hr, hf, hfe, List.head?_nil]
          rw [main_model_gd_none a rest io_class s action status apps hgd]
          simp [hstale]
        | cons e t =>
          have hgd : get_default_device (a :: rest) io_class s
              = some (e, write_device_index s io_class e.index,
                  [Effect.writeIndex io_class e.index]) := by
            simp only [get_default_device, hr, hf, hfe, List.head?_cons]
          rw [main_model_gd a rest io_class s action status apps _ _ _ hgd]
          have heF : e ∈ (a :: rest).filter ignore_monitor_devs := by
            rw [hfe]
            exact List.mem_cons_self e t
          have he : e ∈ (a :: rest) := (List.mem_filter.mp heF).1
          have hgood : ∃ k,
              read_device_index (write_device_index s io_class e.index) io_class
                = some k ∧
              ((a :: rest).find? (fun d => d.index == k)).isSome = true :=
            ⟨e.index, read_after_write s io_class e.index (hwf e he),
             List.find?_isSome.mpr ⟨e, he, by simp⟩⟩
          rw [action_tail_none_iff (a :: rest) io_class e apps _ _ action
            status hwf he hgood, hfe, hstale]
          simp
      · have hstale : staleB s io_class (a :: rest) = false := by
          simp [staleB, hr, hf]
        have hgd : get_default_device (a :: rest) io_class s
            = some (dev, s, []) := by
          simp only [get_default_device, hr, hf]
        rw [main_model_gd a rest io_class s action status apps _ _ _ hgd]
        have hdev : dev ∈ (a :: rest) := List.mem_of_find?_eq_some hf
        have hgood : ∃ k, read_device_index s io_class = some k ∧
            ((a :: rest).find? (fun d => d.index == k)).isSome = true :=
          ⟨idx, hr, by rw [hf]; rfl⟩
        rw [action_tail_none_iff (a :: rest) io_class dev apps s [] action
          status hwf hdev hgood, hstale]
        simp

/-- Witness for C9 amended: the catalog `[alpha]` with fresh state and Next
cannot exit non-zero (it has an eligible device). -/
theorem C9_exit_status_witness :
    ¬ (main_model [devAlpha] InputOutput.Output emptyStore (some Action.Next)
        none [] = none) := by
  intro h
  have h2 := (C9_exit_status [devAlpha] InputOutput.Output emptyStore
    (some Action.Next) none [] (by decide)).mp h
  exact absurd h2.2.1 (by decide)

/-- Witness for C6 amended on the catalog `[alpha, beta]`. -/
theorem C6_fresh_cycles_witness :
    ∃ t, next_dev_select [devAlpha, devBeta] Direction.Forward devAlpha
        = some t ∧
      main_model [devAlpha, devBeta] InputOutput.Output emptyStore
          (some Action.Next) none []
        = some (write_device_index
              (write_device_index emptyStore InputOutput.Output devAlpha.index)
              InputOutput.Output t.index,
            Effect.writeIndex InputOutput.Output devAlpha.index ::
              (set_default [] t.index ++
                [Effect.setDefaultDevice (t.name.getD ""),
                 Effect.writeIndex InputOutput.Output t.index])) :=
  C6_fresh_cycles [devAlpha, devBeta] InputOutput.Output emptyStore []
    Action.Next Direction.Forward (by decide) devAlpha rfl
    ⟨devAlpha, by decide, by decide⟩ (Or.inl ⟨rfl, rfl⟩)

end Pctrl
